import Mathlib

/-!
Verification of the tip-chain frame server core: the in-memory fixed-window
rate limiter, the input validators, and the transaction preparer, shallowly
embedded in Lean.  JavaScript strings are modelled as Lean `String`s (with
character-level helpers working on `String.data`), JS numbers as `ℚ` where
fractional values matter and as `Nat`/`Int` where the code only handles
integral values, and `Date.now()` timestamps as `Nat` milliseconds passed
explicitly.  Fallible operations return `Option`.
-/

namespace TipChain

/-! ## In-memory rate limiter (rate-limit module, `InMemoryRateLimiter`) -/

/-- One record of the limiter's `requests` map: `{ count, resetTime }`. -/
structure RateLimitEntry where
  count : Nat
  resetTime : Nat
  deriving Repr, DecidableEq

/-- The `RateLimitResult` interface: `{ success, limit, remaining, reset }`.
`remaining` is an `Int` because the code computes `maxRequests - 1`, which is
negative when the limiter is configured with `maxRequests = 0`. -/
structure RateLimitResult where
  success : Bool
  limit : Nat
  remaining : Int
  reset : Nat
  deriving Repr, DecidableEq

/-- The `InMemoryRateLimiter` class: configuration plus the per-identifier
record table (the `Map` is modelled as a function to `Option`). -/
structure InMemoryRateLimiter where
  maxRequests : Nat
  windowMs : Nat
  requests : String → Option RateLimitEntry

/-- A freshly constructed limiter with an empty record table
(`new InMemoryRateLimiter(maxRequests, windowMs)`). -/
def InMemoryRateLimiter.mkNew (maxRequests windowMs : Nat) : InMemoryRateLimiter :=
  ⟨maxRequests, windowMs, fun _ => none⟩

/-- `InMemoryRateLimiter.limit(identifier)`, with `Date.now()` passed as `now`.
The probabilistic `cleanup` call is omitted: it only deletes *expired* entries,
and an expired entry and a missing entry take the same branch with the same
result and the same written record, so `cleanup` never changes any observable
outcome of `limit`. -/
def InMemoryRateLimiter.limit (rl : InMemoryRateLimiter) (identifier : String) (now : Nat) :
    RateLimitResult × InMemoryRateLimiter :=
  match rl.requests identifier with
  | none =>
      (⟨true, rl.maxRequests, (rl.maxRequests : Int) - 1, now + rl.windowMs⟩,
       { rl with requests := fun s =>
           if s = identifier then some ⟨1, now + rl.windowMs⟩ else rl.requests s })
  | some entry =>
      if now > entry.resetTime then
        -- window expired: same as the first request
        (⟨true, rl.maxRequests, (rl.maxRequests : Int) - 1, now + rl.windowMs⟩,
         { rl with requests := fun s =>
             if s = identifier then some ⟨1, now + rl.windowMs⟩ else rl.requests s })
      else
        -- increment count
        let newCount := entry.count + 1
        if newCount > rl.maxRequests then
          (⟨false, rl.maxRequests, 0, entry.resetTime⟩,
           { rl with requests := fun s =>
               if s = identifier then some ⟨newCount, entry.resetTime⟩ else rl.requests s })
        else
          (⟨true, rl.maxRequests, (rl.maxRequests : Int) - newCount, entry.resetTime⟩,
           { rl with requests := fun s =>
               if s = identifier then some ⟨newCount, entry.resetTime⟩ else rl.requests s })

/-- Run `limit` for the same identifier at each time in `times`, collecting the
results and threading the limiter state. -/
def limitRun (rl : InMemoryRateLimiter) (identifier : String) :
    List Nat → List RateLimitResult × InMemoryRateLimiter
  | [] => ([], rl)
  | t :: ts =>
      let step := rl.limit identifier t
      let rest := limitRun step.2 identifier ts
      (step.1 :: rest.1, rest.2)

/-- The result `limit` returns for the `c`-th request of a live window whose
reset timestamp is `reset`, under limit `maxRequests`. -/
def windowResult (maxRequests c reset : Nat) : RateLimitResult :=
  if c > maxRequests then ⟨false, maxRequests, 0, reset⟩
  else ⟨true, maxRequests, (maxRequests : Int) - c, reset⟩

/-! ## Character, list and decimal-string helpers (JS string operations are
modelled on `String.data`, the underlying list of characters) -/

/-- Character class of the regex `[a-fA-F0-9]`. -/
def isHexDigitChar (c : Char) : Bool :=
  c.isDigit || ('a' ≤ c && c ≤ 'f') || ('A' ≤ c && c ≤ 'F')

/-- `String.prototype.split(sep)` for a single-character separator:
`"a.b".split('.') = ["a","b"]`, `"".split('.') = [""]`, `".".split('.') = ["",""]`. -/
def splitOnChar (sep : Char) : List Char → List (List Char)
  | [] => [[]]
  | c :: cs =>
      let r := splitOnChar sep cs
      if c = sep then [] :: r
      else
        match r with
        | [] => [[c]]
        | h :: t => (c :: h) :: t

/-- Value of a list of decimal digit characters. -/
def digitsVal (l : List Char) : Nat :=
  l.foldl (fun acc c => acc * 10 + (c.toNat - 48)) 0

/-- `parseFloat` on the plain-decimal fragment (`digits`, `digits.digits`,
`.digits`, `digits.`), as an exact rational; every other input is modelled as
`NaN` (`none`).  JS `parseFloat` rounds to an IEEE double; this exact variant
is used only where the verdict provably coincides with the rounded one — the
positivity test of `tipSchema` on amounts with at most 18 fractional digits,
whose exact value is then at least `10 ^ (-18)`, far above the double
underflow threshold.  `validateAmount`, whose 1,000,000-maximum check IS
rounding-sensitive, takes `parseFloat` as an explicit host-primitive
parameter instead.  The decimal value `intPart + frac / 10 ^ len` is built as
the single rational `mkRat (intPart * 10 ^ len + frac) (10 ^ len)` — the same
number — because `ℚ`'s arithmetic instances do not reduce in the kernel. -/
def parseDecimal? (s : String) : Option ℚ :=
  match splitOnChar '.' s.data with
  | [w] =>
      if (!w.isEmpty) && w.all Char.isDigit then some (digitsVal w : ℚ) else none
  | [w, f] =>
      if (!w.isEmpty || !f.isEmpty) && w.all Char.isDigit && f.all Char.isDigit then
        some (mkRat (digitsVal w * 10 ^ f.length + digitsVal f) (10 ^ f.length))
      else none
  | _ => none

/-! ## Validators (validation module) -/

/-- The `ValidationResult` interface. -/
structure ValidationResult where
  isValid : Bool
  error : Option String := none
  field : Option String := none
  deriving Repr, DecidableEq

/-- `validateAmount`: parse the amount, reject `NaN`, non-positive values,
values above 1,000,000, and more than 18 decimal places (in that order).
`parseFloat` is a host primitive with IEEE-double semantics (its result is
always a rational); it is passed in as `parseFloat?` (`none` = `NaN`), and
theorems pin its value at concrete literals. -/
def validateAmount (parseFloat? : String → Option ℚ) (amount : String) : ValidationResult :=
  match parseFloat? amount with
  | none => { isValid := false, error := some "Amount must be a valid number" }
  | some numAmount =>
      if numAmount ≤ 0 then
        { isValid := false, error := some "Amount must be greater than 0" }
      else if numAmount > 1000000 then
        { isValid := false, error := some "Amount is too large" }
      else
        let decimalParts := splitOnChar '.' amount.data
        if decimalParts.length > 1 && decide ((decimalParts.getD 1 []).length > 18) then
          { isValid := false, error := some "Too many decimal places" }
        else
          { isValid := true }

/-- `validateENS`: the regex `^[a-zA-Z0-9-]+\.eth$`. -/
def validateENS (name : String) : Bool :=
  let l := name.data
  decide (4 < l.length) &&
  (l.take (l.length - 4)).all (fun c => c.isAlphanum || c == '-') &&
  decide (l.drop (l.length - 4) = ['.', 'e', 't', 'h'])

/-- The `tipSchema` recipient rule of the prepare-tip route: the regex
`^0x[a-fA-F0-9]{40}$`. -/
def matchesAddressRegex (s : String) : Bool :=
  match s.data with
  | '0' :: 'x' :: rest => rest.length == 40 && rest.all isHexDigitChar
  | _ => false

/-- The ECMA-262 character class `String.prototype.trim` strips: *WhiteSpace*
(tab, vertical tab, form feed, space, no-break space, zero-width no-break
space, and the Unicode Space_Separator category) together with
*LineTerminator* (LF, CR, line separator, paragraph separator). -/
def isJsWhitespace (c : Char) : Bool :=
  c == ' ' || c == '\t' || c == '\n' || c == '\r' ||
  c == '\x0B' || c == '\x0C' || c == '\u00A0' || c == '\uFEFF' ||
  c == '\u1680' || ('\u2000' ≤ c && c ≤ '\u200A') ||
  c == '\u2028' || c == '\u2029' || c == '\u202F' || c == '\u205F' || c == '\u3000'

/-- `sanitizeInput`'s trim step (`String.prototype.trim`). -/
def jsTrim (l : List Char) : List Char :=
  ((l.dropWhile isJsWhitespace).reverse.dropWhile isJsWhitespace).reverse

/-- The `replace` step of `sanitizeInput`: remove every angle-bracket
character, as the global regex replacement does. -/
def removeAngles (l : List Char) : List Char :=
  l.filter fun c => !(c == '<' || c == '>')

/-- `sanitizeInput`: trim, strip `<` and `>`, then `slice(0, 1000)`. -/
def sanitizeInput (s : String) : String :=
  String.mk (List.take 1000 (removeAngles (jsTrim s.data)))

/-! ## Frame message validation (`validateFrameMessage`).  The untyped JS
message value is modelled by `JSVal`; `undefined` (an absent field) is
modelled by `Option`.  JS `NaN` has no counterpart in `ℚ` and is not
modelled. -/

/-- A JS value as far as the validator inspects one. -/
inductive JSVal where
  | num (q : ℚ)
  | str (s : String)
  | bool (b : Bool)
  | null
  | obj (fields : List (String × JSVal))

/-- `typeof v` for the modelled values (`typeof null` is `"object"`). -/
def JSVal.typeOf : JSVal → String
  | num _ => "number"
  | str _ => "string"
  | bool _ => "boolean"
  | null => "object"
  | obj _ => "object"

/-- JS truthiness of the modelled values. -/
def JSVal.truthy : JSVal → Bool
  | num q => decide (q ≠ 0)
  | str s => decide (s ≠ "")
  | bool b => b
  | null => false
  | obj _ => true

/-- Property access `v[name]`; `none` is `undefined`. -/
def JSVal.getField : JSVal → String → Option JSVal
  | obj fields, name => fields.lookup name
  | _, _ => none

/-- The required-field list of `validateFrameMessage`. -/
def requiredFields : List String :=
  ["fid", "url", "messageHash", "timestamp", "network"]

/-- `typeof x === 'number' && x > 0` (the negation of the rejection test
`typeof x !== 'number' || x <= 0`). -/
def jsPositiveNumber : Option JSVal → Bool
  | some (JSVal.num q) => decide (0 < q)
  | _ => false

/-- `typeof x === 'number'`. -/
def jsIsNumber : Option JSVal → Bool
  | some (JSVal.num _) => true
  | _ => false

/-- `typeof url === 'string' && isValidUrl(url)`. -/
def urlFieldOk (isValidUrl : String → Bool) : Option JSVal → Bool
  | some (JSVal.str url) => isValidUrl url
  | _ => false

/-- `typeof x === 'string' && x.length >= 10`. -/
def hashFieldOk : Option JSVal → Bool
  | some (JSVal.str h) => decide (10 ≤ h.length)
  | _ => false

/-- The optional `buttonIndex` check: absent, or a number in `[1, 4]`
(the code checks `typeof`, `< 1` and `> 4` — integrality is not checked). -/
def buttonIndexOk (message : JSVal) : Bool :=
  match message.getField "buttonIndex" with
  | none => true
  | some (JSVal.num buttonIndex) => decide (1 ≤ buttonIndex) && decide (buttonIndex ≤ 4)
  | some _ => false

/-- The optional `inputText` check: absent, or a string of at most 256 chars. -/
def inputTextOk (message : JSVal) : Bool :=
  match message.getField "inputText" with
  | none => true
  | some (JSVal.str inputText) => decide (inputText.length ≤ 256)
  | some _ => false

/-- The optional `castId` check: absent, or truthy with a numeric `fid` and a
string `hash`. -/
def castIdOk (message : JSVal) : Bool :=
  match message.getField "castId" with
  | none => true
  | some castId =>
      castId.truthy &&
      jsIsNumber (castId.getField "fid") &&
      (match castId.getField "hash" with
       | some (JSVal.str _) => true
       | _ => false)

/-- `validateFrameMessage`: the code's early-return cascade written as the
equivalent conjunction (each `if (bad) return false` becomes one conjunct).
The WHATWG `new URL` parser is a host primitive and is passed in as
`isValidUrl`; the signature of the message is not verified, as in the code. -/
def validateFrameMessage (isValidUrl : String → Bool) (message : JSVal) : Bool :=
  message.truthy && message.typeOf == "object" &&
  requiredFields.all (fun f => (message.getField f).isSome) &&
  jsPositiveNumber (message.getField "fid") &&
  urlFieldOk isValidUrl (message.getField "url") &&
  hashFieldOk (message.getField "messageHash") &&
  jsPositiveNumber (message.getField "timestamp") &&
  jsIsNumber (message.getField "network") &&
  buttonIndexOk message && inputTextOk message && castIdOk message

/-- A structurally valid message except that `buttonIndex` is the non-integer
number `5/2 = 2.5` (written `mkRat 5 2`, which reduces in the kernel). -/
def buttonIndexHalfMsg : JSVal :=
  JSVal.obj
    [("fid", JSVal.num 1), ("url", JSVal.str "https://example.com"),
     ("messageHash", JSVal.str "0123456789"), ("timestamp", JSVal.num 1),
     ("network", JSVal.num 1), ("buttonIndex", JSVal.num (mkRat 5 2))]

/-- A structurally valid message except that `buttonIndex = 5`. -/
def buttonIndexFiveMsg : JSVal :=
  JSVal.obj
    [("fid", JSVal.num 1), ("url", JSVal.str "https://example.com"),
     ("messageHash", JSVal.str "0123456789"), ("timestamp", JSVal.num 1),
     ("network", JSVal.num 1), ("buttonIndex", JSVal.num 5)]

/-! ## Chains, token contracts and call-data encoding (chain, currency and
contracts modules) -/

/-- A supported chain, restricted to the fields the transaction preparer
reads (`id` and `name`); RPC/explorer/currency metadata is not used by any
claim. -/
structure SupportedChain where
  id : Nat
  name : String
  deriving Repr, DecidableEq

/-- `SUPPORTED_CHAINS`: Ethereum, Base, Optimism. -/
def SUPPORTED_CHAINS : List SupportedChain :=
  [⟨1, "Ethereum"⟩, ⟨8453, "Base"⟩, ⟨10, "Optimism"⟩]

/-- `TESTNET_CHAINS`: Sepolia, Base Sepolia, Optimism Sepolia. -/
def TESTNET_CHAINS : List SupportedChain :=
  [⟨11155111, "Sepolia"⟩, ⟨84532, "Base Sepolia"⟩, ⟨11155420, "Optimism Sepolia"⟩]

/-- `getSupportedChains`: mainnet chains in production, mainnet plus testnet
chains otherwise (`NODE_ENV` is passed as `isProduction`). -/
def getSupportedChains (isProduction : Bool) : List SupportedChain :=
  if isProduction then SUPPORTED_CHAINS else SUPPORTED_CHAINS ++ TESTNET_CHAINS

/-- ASCII `String.prototype.toLowerCase`. -/
def jsToLowerCase (s : String) : String :=
  String.mk (s.data.map Char.toLower)

/-- `TOKEN_ADDRESSES` from the currency module: token contract addresses per
chain (note: Base has no USDT or DAI entry, and no chain has a DAI entry). -/
def TOKEN_ADDRESSES : List (Nat × List (String × String)) :=
  [(1, [("USDC", "0xA0b86a33E6C17B8D8600Ff3C9C6d5f8a9A1F8C7E"),
        ("USDT", "0xdAC17F958D2ee523a2206206994597C13D831ec7"),
        ("WETH", "0xC02aaA39b223FE8D0A0e5C4F27eAD9083C756Cc2")]),
   (8453, [("USDC", "0x833589fCD6eDb6E08f4c7C32D4f71b54bdA02913"),
           ("WETH", "0x4200000000000000000000000000000000000006")]),
   (10, [("USDC", "0x7F5c764cBc14f9669B88837ca1490cCa17c31607"),
         ("USDT", "0x94b008aA00579c1307B0EF2c499aD98a8ce58e58"),
         ("WETH", "0x4200000000000000000000000000000000000006")])]

/-- `TOKEN_DECIMALS` from the contracts module. -/
def TOKEN_DECIMALS : List (String × Nat) :=
  [("ETH", 18), ("WETH", 18), ("USDC", 6), ("USDT", 6), ("DAI", 18)]

/-- `TOKEN_ADDRESSES[chainId]?.[symbol]`. -/
def lookupTokenAddress (chainId : Nat) (symbol : String) : Option String :=
  (TOKEN_ADDRESSES.lookup chainId).bind fun m => m.lookup symbol

/-- A token contract record; the constant `abi` field is omitted because no
claim reads it. -/
structure TokenContract where
  address : String
  chainId : Nat
  symbol : String
  decimals : Nat
  deriving Repr, DecidableEq

/-- `getTokenContract`: `null` for the native token, for a missing address on
the chain, or for a symbol without a decimals entry. -/
def getTokenContract (symbol : String) (chainId : Nat) : Option TokenContract :=
  if symbol == "ETH" then none
  else
    match lookupTokenAddress chainId symbol with
    | none => none
    | some address =>
        match TOKEN_DECIMALS.lookup symbol with
        | none => none
        | some decimals => some ⟨address, chainId, symbol, decimals⟩

/-- `getTokenDecimals`: `TOKEN_DECIMALS[symbol] || 18` (no entry has 0
decimals, so JS falsiness coincides with absence). -/
def getTokenDecimals (symbol : String) : Nat :=
  (TOKEN_DECIMALS.lookup symbol).getD 18

/-- The hex digit character for `d < 16`, lowercase as `BigInt.toString(16)`
produces. -/
def hexDigitChar (d : Nat) : Char :=
  if d < 10 then Char.ofNat (48 + d) else Char.ofNat (87 + d)

/-- Numeric value of a hex digit character (0 for non-hex characters). -/
def hexCharVal (c : Char) : Nat :=
  if '0' ≤ c ∧ c ≤ '9' then c.toNat - 48
  else if 'a' ≤ c ∧ c ≤ 'f' then c.toNat - 87
  else if 'A' ≤ c ∧ c ≤ 'F' then c.toNat - 55
  else 0

/-- Accumulator loop of `BigInt.toString(16)`: prepend the hex digits of `n`
(most significant first) to `acc`. -/
def natToHexCore (n : Nat) (acc : List Char) : List Char :=
  if h : n = 0 then acc
  else natToHexCore (n / 16) (hexDigitChar (n % 16) :: acc)
  termination_by n
  decreasing_by exact Nat.div_lt_self (Nat.pos_of_ne_zero h) (by norm_num)

/-- `BigInt.toString(16)`: minimal-length lowercase hex, `"0"` for 0. -/
def natToHex (n : Nat) : List Char :=
  if n = 0 then ['0'] else natToHexCore n []

/-- Value of a hex digit string (how a decoder reads a 32-byte word). -/
def hexToNat (l : List Char) : Nat :=
  l.foldl (fun acc c => acc * 16 + hexCharVal c) 0

/-- `String.prototype.padStart(len, c)`. -/
def padStart (len : Nat) (c : Char) (l : List Char) : List Char :=
  List.replicate (len - l.length) c ++ l

/-- The 4-byte `transfer(address,uint256)` selector as hex text, `0x` prefix
included. -/
def transferSelector : List Char := "0xa9059cbb".data

/-- `encodeTransfer`: selector, then the recipient (`to`, called `toAddr`
here because `to` is reserved in Lean) without its `0x` prefix left-padded to
64 hex characters, then the amount in hex left-padded to 64 hex characters. -/
def encodeTransfer (toAddr : List Char) (amount : Nat) : List Char :=
  transferSelector ++ padStart 64 '0' (toAddr.drop 2) ++ padStart 64 '0' (natToHex amount)

/-- Modelled from the spec: the decoder of a token-transfer call used by the
round-trip property (the repository encodes but never decodes call data).
Skip the 10-character selector, read the recipient as the last 40 characters
of the first 64-character word, and the amount as the value of the second
64-character word. -/
def decodeTransfer (data : List Char) : List Char × Nat :=
  ('0' :: 'x' :: ((data.drop 10).take 64).drop 24,
   hexToNat (((data.drop 10).drop 64).take 64))

/-! ## The prepare-tip route (`POST /api/frame/prepare-tip`) -/

/-- `tipSchema` of the prepare-tip route: amount parses with a positive value,
token is a non-empty string (no allow-list here), recipient matches
`^0x[a-fA-F0-9]{40}$`. -/
def tipSchemaValid (amount token recipient : String) : Bool :=
  (match parseDecimal? amount with
   | some q => decide (0 < q)
   | none => false) &&
  decide (1 ≤ token.length) &&
  matchesAddressRegex recipient

/-- `ethers.parseUnits(value, decimals)` (and `parseEther` = 18) on the
non-negative plain-decimal fragment: exact integer scaling of the decimal
string; a fraction longer than `decimals` or a malformed string throws, which
is modelled as `none`.  The negative branch is omitted: it is unreachable
behind `tipSchema`'s positivity check. -/
def parseUnits? (s : String) (decimals : Nat) : Option Nat :=
  match splitOnChar '.' s.data with
  | [w] =>
      if (!w.isEmpty) && w.all Char.isDigit then some (digitsVal w * 10 ^ decimals)
      else none
  | [w, f] =>
      if (!w.isEmpty || !f.isEmpty) && w.all Char.isDigit && f.all Char.isDigit
          && decide (f.length ≤ decimals) then
        some (digitsVal w * 10 ^ decimals + digitsVal f * 10 ^ (decimals - f.length))
      else none
  | _ => none

/-- The transaction payload embedded in the `fc:frame:tx:params` meta tag;
the `to` field is called `toAddr` because `to` is reserved in Lean. -/
structure TransactionData where
  toAddr : String
  value : String
  data : String
  deriving Repr, DecidableEq

/-- The possible outcomes of the POST handler after rate limiting and frame
message validation have passed (those two gates are modelled separately):
schema failure (400), no chain configured (500), unsupported token on the
resolved chain (400, naming token and chain), a transaction frame (200), or
the catch-all error frame (500), which is where a throwing
`ethers.parseEther`/`parseUnits` lands. -/
inductive PrepareOutcome where
  | invalidParams
  | noSupportedChains
  | unsupportedToken (token : String) (chainName : String)
  | transactionFrame (txData : TransactionData) (chainId : Nat)
  | serverError
  deriving Repr, DecidableEq

/-- The core of the POST handler: validate against `tipSchema`, pick the
preferred chain (`find` on lowercased name `"base"`, else the first chain),
compute `parseEther(amount)`, then either a native transfer
(`data = "0x"`, `value = amountInWei.toString()`) or an ERC-20 transfer call
(`ethers.Interface.encodeFunctionData('transfer', ...)`, which lays out its
output exactly as the repository's own `encodeTransfer`).  The
`chains.find(...) || chains[0]` selection is factored out as
`preferredBaseChain?`. -/
def preferredBaseChain? (isProduction : Bool) : Option SupportedChain :=
  let chains := getSupportedChains isProduction
  match chains.find? (fun chain => jsToLowerCase chain.name == "base") with
  | some chain => some chain
  | none => chains.head?

def prepareTipPost (isProduction : Bool) (amount token recipient : String) : PrepareOutcome :=
  if !(tipSchemaValid amount token recipient) then PrepareOutcome.invalidParams
  else
    match preferredBaseChain? isProduction with
    | none => PrepareOutcome.noSupportedChains
    | some preferredChain =>
        match parseUnits? amount 18 with
        | none => PrepareOutcome.serverError
        | some amountInWei =>
            if token == "ETH" then
              PrepareOutcome.transactionFrame
                ⟨recipient, Nat.repr amountInWei, "0x"⟩ preferredChain.id
            else
              match getTokenContract token preferredChain.id with
              | none => PrepareOutcome.unsupportedToken token preferredChain.name
              | some tokenContract =>
                  match parseUnits? amount (getTokenDecimals token) with
                  | none => PrepareOutcome.serverError
                  | some tokenAmount =>
                      PrepareOutcome.transactionFrame
                        ⟨tokenContract.address, "0",
                         String.mk (encodeTransfer recipient.data tokenAmount)⟩
                        preferredChain.id


/-! ## Theorems -/

lemma InMemoryRateLimiter.limit_within (rl : InMemoryRateLimiter) (identifier : String)
    (now : Nat) (e : RateLimitEntry) (h : rl.requests identifier = some e)
    (hle : now ≤ e.resetTime) :
    rl.limit identifier now =
      (windowResult rl.maxRequests (e.count + 1) e.resetTime,
       { rl with requests := fun s =>
           if s = identifier then some ⟨e.count + 1, e.resetTime⟩ else rl.requests s }) := by
  simp only [InMemoryRateLimiter.limit, h]
  rw [if_neg (Nat.not_lt.mpr hle)]
  unfold windowResult
  split <;> rfl

lemma InMemoryRateLimiter.limit_fresh (rl : InMemoryRateLimiter) (identifier : String)
    (now : Nat)
    (h : rl.requests identifier = none ∨
         ∃ e, rl.requests identifier = some e ∧ e.resetTime < now) :
    rl.limit identifier now =
      (⟨true, rl.maxRequests, (rl.maxRequests : Int) - 1, now + rl.windowMs⟩,
       { rl with requests := fun s =>
           if s = identifier then some ⟨1, now + rl.windowMs⟩ else rl.requests s }) := by
  rcases h with h | ⟨e, h, hlt⟩ <;> simp only [InMemoryRateLimiter.limit, h]
  rw [if_pos hlt]

lemma limitRun_within (identifier : String) (ts : List Nat) :
    ∀ (rl : InMemoryRateLimiter) (c r : Nat),
      rl.requests identifier = some ⟨c, r⟩ → (∀ t ∈ ts, t ≤ r) →
      (limitRun rl identifier ts).1
          = (List.range ts.length).map (fun i => windowResult rl.maxRequests (c + i + 1) r) ∧
      (limitRun rl identifier ts).2.requests identifier = some ⟨c + ts.length, r⟩ ∧
      (limitRun rl identifier ts).2.maxRequests = rl.maxRequests ∧
      (limitRun rl identifier ts).2.windowMs = rl.windowMs := by
  induction ts with
  | nil => intro rl c r h _; simp [limitRun, h]
  | cons t ts ih =>
      intro rl c r h hts
      have hstep := rl.limit_within identifier t ⟨c, r⟩ h (hts t (by simp))
      have hreq : ((rl.limit identifier t).2).requests identifier = some ⟨c + 1, r⟩ := by
        rw [hstep]; simp
      obtain ⟨h1, h2, h3, h4⟩ :=
        ih (rl.limit identifier t).2 (c + 1) r hreq
          (fun t' ht' => hts t' (List.mem_cons_of_mem _ ht'))
      have hmax : ((rl.limit identifier t).2).maxRequests = rl.maxRequests := by
        rw [hstep]
      rw [hmax] at h1
      refine ⟨?_, ?_, ?_, ?_⟩
      · simp only [limitRun, h1, List.length_cons, List.range_succ_eq_map, List.map_cons,
          List.map_map]
        refine congrArg₂ List.cons ?_ ?_
        · rw [hstep]
        · refine List.map_congr_left fun a _ => ?_
          simp only [Function.comp_apply, Nat.succ_eq_add_one]
          have heq : c + 1 + a + 1 = c + (a + 1) + 1 := by omega
          rw [heq]
      · simp only [limitRun, h2, List.length_cons]
        congr 2
        omega
      · simp only [limitRun, h3, hmax]
      · simp only [limitRun, h4]
        rw [hstep]

/-- **C1.** Fixed-window behaviour of `InMemoryRateLimiter.limit` for a
configuration `maxRequests = N`, `windowMs = W` (the claim's "first call",
"subsequent call" phrasing presupposes `1 ≤ N`): the first call creates a
record with count 1 and returns success with `remaining = N - 1`; each call
before the window reset increments the stored count; the first `N` calls
succeed with decreasing `remaining`; the `(N+1)`-th call in the same window
returns `success = false` with `remaining = 0`; and the first call after the
window has elapsed is again accepted with `remaining = N - 1`. -/
theorem rateLimiter_fixed_window_cycle
    (N W : Nat) (hN : 1 ≤ N) (identifier : String) (t0 : Nat) (rest : List Nat)
    (hlen : rest.length = N) (hrest : ∀ t ∈ rest, t ≤ t0 + W)
    (t' : Nat) (ht' : t0 + W < t') :
    ((InMemoryRateLimiter.mkNew N W).limit identifier t0).1
        = ⟨true, N, (N : Int) - 1, t0 + W⟩ ∧
    ((InMemoryRateLimiter.mkNew N W).limit identifier t0).2.requests identifier
        = some ⟨1, t0 + W⟩ ∧
    (∀ j, j ≤ rest.length →
      (limitRun (InMemoryRateLimiter.mkNew N W) identifier (t0 :: rest.take j)).2.requests
          identifier = some ⟨j + 1, t0 + W⟩) ∧
    (∀ i, i < N →
      (limitRun (InMemoryRateLimiter.mkNew N W) identifier (t0 :: rest)).1.get? i
        = some ⟨true, N, (N : Int) - (i + 1), t0 + W⟩) ∧
    (limitRun (InMemoryRateLimiter.mkNew N W) identifier (t0 :: rest)).1.get? N
        = some ⟨false, N, 0, t0 + W⟩ ∧
    ((limitRun (InMemoryRateLimiter.mkNew N W) identifier (t0 :: rest)).2.limit identifier
        t').1 = ⟨true, N, (N : Int) - 1, t' + W⟩ := by
  have hfresh := (InMemoryRateLimiter.mkNew N W).limit_fresh identifier t0 (Or.inl rfl)
  have hreq1 : ((InMemoryRateLimiter.mkNew N W).limit identifier t0).2.requests identifier
      = some ⟨1, t0 + W⟩ := by rw [hfresh]; simp [InMemoryRateLimiter.mkNew]
  refine ⟨by rw [hfresh]; rfl, hreq1, ?_, ?_, ?_, ?_⟩
  · intro j hj
    simp only [limitRun]
    obtain ⟨_, h2, _, _⟩ :=
      limitRun_within identifier (rest.take j) _ 1 (t0 + W) hreq1
        (fun t' ht' => hrest t' (List.take_subset j rest ht'))
    rw [h2, List.length_take]
    congr 2
    omega
  · intro i hi
    simp only [limitRun]
    have hmax : ((InMemoryRateLimiter.mkNew N W).limit identifier t0).2.maxRequests = N := by
      rw [hfresh]; rfl
    obtain ⟨h1, _, _, _⟩ :=
      limitRun_within identifier rest _ 1 (t0 + W) hreq1 hrest
    rw [hmax] at h1
    rcases i with _ | i
    · simp only [List.get?_cons_zero]
      rw [hfresh]
      norm_num [InMemoryRateLimiter.mkNew]
    · simp only [List.get?_cons_succ, h1, List.get?_map,
        List.get?_range (by omega : i < rest.length), Option.map_some']
      unfold windowResult
      rw [if_neg (by omega)]
      simp only [Option.some.injEq, RateLimitResult.mk.injEq, true_and, and_true]
      push_cast
      ring
  · simp only [limitRun]
    have hmax : ((InMemoryRateLimiter.mkNew N W).limit identifier t0).2.maxRequests = N := by
      rw [hfresh]; rfl
    obtain ⟨h1, _, _, _⟩ :=
      limitRun_within identifier rest _ 1 (t0 + W) hreq1 hrest
    rw [hmax] at h1
    rcases N with _ | n
    · omega
    · simp only [List.get?_cons_succ, h1, List.get?_map,
        List.get?_range (by omega : n < rest.length), Option.map_some']
      unfold windowResult
      rw [if_pos (by omega)]
  · simp only [limitRun]
    obtain ⟨_, h2, h3, h4⟩ :=
      limitRun_within identifier rest _ 1 (t0 + W) hreq1 hrest
    have hmax : ((InMemoryRateLimiter.mkNew N W).limit identifier t0).2.maxRequests = N := by
      rw [hfresh]; rfl
    have hwin : ((InMemoryRateLimiter.mkNew N W).limit identifier t0).2.windowMs = W := by
      rw [hfresh]; rfl
    have := InMemoryRateLimiter.limit_fresh
      (limitRun ((InMemoryRateLimiter.mkNew N W).limit identifier t0).2 identifier rest).2
      identifier t' (Or.inr ⟨⟨1 + rest.length, t0 + W⟩, h2, ht'⟩)
    rw [this, h3, h4, hmax, hwin]

/-- Witness for C1 at `N = 2`, `W = 10`, calls at times `0, 1, 2` and a
post-window call at `11`. -/
theorem rateLimiter_fixed_window_cycle_witness :
    ((InMemoryRateLimiter.mkNew 2 10).limit "u" 0).1 = ⟨true, 2, 1, 10⟩ ∧
    ((InMemoryRateLimiter.mkNew 2 10).limit "u" 0).2.requests "u" = some ⟨1, 10⟩ ∧
    (∀ j, j ≤ [1, 2].length →
      (limitRun (InMemoryRateLimiter.mkNew 2 10) "u" (0 :: [1, 2].take j)).2.requests "u"
        = some ⟨j + 1, 10⟩) ∧
    (∀ i, i < 2 →
      (limitRun (InMemoryRateLimiter.mkNew 2 10) "u" [0, 1, 2]).1.get? i
        = some ⟨true, 2, (2 : Int) - (i + 1), 10⟩) ∧
    (limitRun (InMemoryRateLimiter.mkNew 2 10) "u" [0, 1, 2]).1.get? 2
        = some ⟨false, 2, 0, 10⟩ ∧
    ((limitRun (InMemoryRateLimiter.mkNew 2 10) "u" [0, 1, 2]).2.limit "u" 11).1
        = ⟨true, 2, 1, 21⟩ :=
  rateLimiter_fixed_window_cycle 2 10 (by decide) "u" 0 [1, 2] (by decide)
    (by decide) 11 (by decide)

/-- **C2 counterexample.** The claim says a request arriving exactly at
`windowResetAt` starts a new window (`count = 1`). In the code the reset
condition is `now > entry.resetTime`, so at `now = resetTime` the request is
counted into the current window: after a first request at time 0 with
`windowMs = 10`, a second request at time 10 leaves `count = 2` (not 1) and
`remaining = 3` (not `maxRequests - 1 = 4`). -/
theorem rateLimiter_boundary_cex :
    ((((InMemoryRateLimiter.mkNew 5 10).limit "u" 0).2.limit "u" 10).2.requests "u"
        = some ⟨2, 10⟩) ∧
    ((((InMemoryRateLimiter.mkNew 5 10).limit "u" 0).2.limit "u" 10).1.remaining = 3) := by
  constructor <;> rfl

/-- **C2 amended.** The reset condition is strict: a request arriving exactly
at `windowResetAt` is treated as still inside the current window (the count is
incremented, no new window starts), and only a request with
`now > windowResetAt` starts a fresh window with `count = 1`. -/
theorem rateLimiter_boundary_reset_strict
    (rl : InMemoryRateLimiter) (identifier : String) (e : RateLimitEntry)
    (h : rl.requests identifier = some e) :
    ((rl.limit identifier e.resetTime).2.requests identifier
        = some ⟨e.count + 1, e.resetTime⟩) ∧
    ((rl.limit identifier e.resetTime).1
        = windowResult rl.maxRequests (e.count + 1) e.resetTime) ∧
    (∀ now, e.resetTime < now →
      (rl.limit identifier now).1
          = ⟨true, rl.maxRequests, (rl.maxRequests : Int) - 1, now + rl.windowMs⟩ ∧
      (rl.limit identifier now).2.requests identifier = some ⟨1, now + rl.windowMs⟩) := by
  have hw := rl.limit_within identifier e.resetTime e h le_rfl
  refine ⟨by rw [hw]; simp, by rw [hw], fun now hnow => ?_⟩
  have hf := rl.limit_fresh identifier now (Or.inr ⟨e, h, hnow⟩)
  exact ⟨by rw [hf], by rw [hf]; simp⟩

/-- Witness for the amended C2: after a first request at time 0 with window 10,
a request exactly at time 10 brings the count to 2, and a request at time 11
starts a fresh window. -/
theorem rateLimiter_boundary_reset_strict_witness :
    ((((InMemoryRateLimiter.mkNew 5 10).limit "u" 0).2.limit "u" 10).2.requests "u"
        = some ⟨2, 10⟩) ∧
    ((((InMemoryRateLimiter.mkNew 5 10).limit "u" 0).2.limit "u" 11).1.success = true) := by
  have h := rateLimiter_boundary_reset_strict
    ((InMemoryRateLimiter.mkNew 5 10).limit "u" 0).2 "u" ⟨1, 10⟩ rfl
  exact ⟨h.1, by rw [(h.2.2 11 (by decide)).1]⟩

/-- **C10.** The first request of a fresh or expired window is always allowed,
whatever the configured limit: when the identifier has no record, or a record
whose `resetTime` is strictly in the past, `limit` returns `success = true`
with `remaining = maxRequests - 1` (which is `-1` when `maxRequests = 0`) and
writes a record with `count = 1`; the count-versus-limit comparison is never
consulted on this path. -/
theorem rateLimiter_first_request_always_allowed
    (rl : InMemoryRateLimiter) (identifier : String) (now : Nat)
    (h : rl.requests identifier = none ∨
         ∃ e, rl.requests identifier = some e ∧ e.resetTime < now) :
    (rl.limit identifier now).1
        = ⟨true, rl.maxRequests, (rl.maxRequests : Int) - 1, now + rl.windowMs⟩ ∧
    (rl.limit identifier now).2.requests identifier = some ⟨1, now + rl.windowMs⟩ := by
  rw [rl.limit_fresh identifier now h]
  exact ⟨rfl, by simp⟩

/-- Witness for C10 at `maxRequests = 0`: the first request is allowed with
`remaining = -1`. -/
theorem rateLimiter_first_request_always_allowed_witness :
    ((InMemoryRateLimiter.mkNew 0 7).limit "u" 3).1 = ⟨true, 0, -1, 10⟩ ∧
    ((InMemoryRateLimiter.mkNew 0 7).limit "u" 3).2.requests "u" = some ⟨1, 10⟩ :=
  rateLimiter_first_request_always_allowed (InMemoryRateLimiter.mkNew 0 7) "u" 3 (Or.inl rfl)

/-- **C3 (code bug).** Contrary to spec and claim, the code *accepts*
`"1000000.000000000000000001"`: IEEE `parseFloat` rounds the string to the
double 1000000.0 (the difference `10 ^ (-18)` is far below the `2 ^ (-33)`
spacing of doubles near `10 ^ 6`), so `numAmount > 1000000` is false, and the
fraction has exactly 18 digits, so `18 > 18` is false too — `isValid` is
`true` although the exact value exceeds the 1,000,000 maximum.  The rounded
values of `parseFloat` at the three literals enter as hypotheses; the other
two verdicts (`"1000000"` accepted, `"0"` rejected) hold as claimed. -/
theorem validateAmount_boundary_bug (pf : String → Option ℚ)
    (h1 : pf "1000000.000000000000000001" = some 1000000)
    (h2 : pf "1000000" = some 1000000)
    (h3 : pf "0" = some 0) :
    (validateAmount pf "1000000.000000000000000001").isValid = true ∧
    (validateAmount pf "1000000").isValid = true ∧
    (validateAmount pf "0").isValid = false := by
  refine ⟨?_, ?_, ?_⟩
  · simp only [validateAmount, h1]
    decide
  · simp only [validateAmount, h2]
    decide
  · simp only [validateAmount, h3]
    decide

/-- Witness for the C3 code-bug theorem at a concrete parse function taking
exactly the values IEEE `parseFloat` takes on the three literals. -/
theorem validateAmount_boundary_bug_witness :
    (validateAmount (fun s => if s = "0" then some 0 else some 1000000)
        "1000000.000000000000000001").isValid = true ∧
    (validateAmount (fun s => if s = "0" then some 0 else some 1000000)
        "1000000").isValid = true ∧
    (validateAmount (fun s => if s = "0" then some 0 else some 1000000)
        "0").isValid = false :=
  validateAmount_boundary_bug (fun s => if s = "0" then some 0 else some 1000000)
    (by decide) (by decide) (by decide)

lemma dot_mem_of_validateENS (s : String) (h : validateENS s = true) : '.' ∈ s.data := by
  unfold validateENS at h
  simp only [Bool.and_eq_true, decide_eq_true_eq] at h
  obtain ⟨⟨-, -⟩, hdrop⟩ := h
  have hmem : '.' ∈ s.data.drop (s.data.length - 4) := by rw [hdrop]; simp
  exact List.mem_of_mem_drop hmem

/-- **C5 counterexample.** `"vitalik.eth"` is a valid recipient under
TipRequest's rule (it matches the ENS pattern) but the prepare-tip route's
`tipSchema` rejects it, so the route does not validate recipients under the
same rule as TipRequest. -/
theorem prepareTip_recipient_cex :
    validateENS "vitalik.eth" = true ∧
    matchesAddressRegex "vitalik.eth" = false ∧
    tipSchemaValid "0.1" "ETH" "vitalik.eth" = false := by
  refine ⟨by decide, by decide, by decide⟩

/-- **C5 amended.** The prepare-tip route validates `recipient` only against
the address regex `^0x[a-fA-F0-9]{40}$` — strictly narrower than TipRequest's
address-or-ENS rule: every name matching the `name.eth` pattern fails the
route's recipient rule, and with it the whole `tipSchema`. -/
theorem tipSchema_recipient_rejects_ens (amount token s : String)
    (h : validateENS s = true) :
    matchesAddressRegex s = false ∧ tipSchemaValid amount token s = false := by
  have hdot := dot_mem_of_validateENS s h
  have haddr : matchesAddressRegex s = false := by
    unfold matchesAddressRegex
    split
    · rename_i rest heq
      rw [heq] at hdot
      rcases List.mem_cons.mp hdot with h0 | hdot'
      · exact absurd h0 (by decide)
      rcases List.mem_cons.mp hdot' with hx | hrest
      · exact absurd hx (by decide)
      cases hall : rest.all isHexDigitChar
      · simp [hall]
      · have := List.all_eq_true.mp hall '.' hrest
        exact absurd this (by decide)
    · rfl
  exact ⟨haddr, by simp [tipSchemaValid, haddr]⟩

/-- Witness for the amended C5 at the ENS name `"vitalik.eth"`. -/
theorem tipSchema_recipient_rejects_ens_witness :
    matchesAddressRegex "vitalik.eth" = false ∧
    tipSchemaValid "0.5" "USDC" "vitalik.eth" = false :=
  tipSchema_recipient_rejects_ens "0.5" "USDC" "vitalik.eth" (by decide)

/-- **C9 counterexample.** `sanitizeInput` is not idempotent: the
angle-bracket removal can expose trailing whitespace that only a second trim
removes — on `"a <"` a space (`"a "`, then `"a"`), and on `"a\x0B<"` a
vertical tab (`"a\x0B"`, then `"a"`, since `\x0B` is ECMA-262 WhiteSpace). -/
theorem sanitizeInput_not_idempotent_cex :
    sanitizeInput "a <" = "a " ∧
    sanitizeInput (sanitizeInput "a <") = "a" ∧
    sanitizeInput (sanitizeInput "a <") ≠ sanitizeInput "a <" ∧
    sanitizeInput "a\x0B<" = "a\x0B" ∧
    sanitizeInput (sanitizeInput "a\x0B<") = "a" ∧
    sanitizeInput (sanitizeInput "a\x0B<") ≠ sanitizeInput "a\x0B<" := by
  refine ⟨by decide, by decide, by decide, by decide, by decide, by decide⟩

/-- **C9 amended.** `sanitizeInput` is not idempotent in general — removing
`<`/`>` can expose boundary whitespace that only a second trim removes — but
it is idempotent on every input whose sanitized result is already trimmed:
the filter and the 1000-character cut are idempotent, so the second trim is
the only step that can change the result. -/
theorem sanitizeInput_idempotent_on_trimmed (s : String)
    (h : jsTrim (sanitizeInput s).data = (sanitizeInput s).data) :
    sanitizeInput (sanitizeInput s) = sanitizeInput s := by
  have hdata : (sanitizeInput s).data = List.take 1000 (removeAngles (jsTrim s.data)) := rfl
  show String.mk (List.take 1000 (removeAngles (jsTrim (sanitizeInput s).data)))
      = sanitizeInput s
  rw [h, hdata]
  have hfil : removeAngles (List.take 1000 (removeAngles (jsTrim s.data)))
      = List.take 1000 (removeAngles (jsTrim s.data)) := by
    show List.filter (fun c => !(c == '<' || c == '>')) _ = _
    refine List.filter_eq_self.mpr fun a ha => ?_
    have ha' : a ∈ List.filter (fun c => !(c == '<' || c == '>')) (jsTrim s.data) :=
      List.take_subset _ _ ha
    simpa using List.of_mem_filter (p := fun c => !(c == '<' || c == '>')) ha'
  rw [hfil, List.take_take, min_self]
  rfl

/-- Witness for the amended C9 on an input with no boundary effects. -/
theorem sanitizeInput_idempotent_on_trimmed_witness :
    sanitizeInput (sanitizeInput "hello") = sanitizeInput "hello" :=
  sanitizeInput_idempotent_on_trimmed "hello" (by decide)

/-- **C4 counterexample.** The validator checks only that `buttonIndex` is a
JS number with `1 <= buttonIndex <= 4`; it never checks integrality, so the
message `buttonIndexHalfMsg` with `buttonIndex = 5/2` — present but *not an
integer in [1,4]* — is accepted, refuting the claim that every such message
is rejected. -/
theorem frameMessage_buttonIndex_cex :
    validateFrameMessage (fun _ => true) buttonIndexHalfMsg = true ∧
    JSVal.getField buttonIndexHalfMsg "buttonIndex" = some (JSVal.num (mkRat 5 2)) ∧
    (mkRat 5 2 : ℚ) = 5 / 2 ∧ (mkRat 5 2 : ℚ).den ≠ 1 := by
  refine ⟨by decide, rfl, by norm_num [Rat.mkRat_eq_div], by decide⟩

/-- **C4 amended.** For every inbound message whose `buttonIndex` field is
present but is not a *number* in the range `[1, 4]` (for example 5, or a
non-numeric value), the validator rejects, regardless of the other fields;
an accepted message carries no `buttonIndex` outside that numeric range —
but integrality of `buttonIndex` is not checked. -/
theorem frameMessage_buttonIndex_range (isValidUrl : String → Bool) (message : JSVal) :
    (∀ q : ℚ, message.getField "buttonIndex" = some (JSVal.num q) → (q < 1 ∨ 4 < q) →
      validateFrameMessage isValidUrl message = false) ∧
    (∀ v, message.getField "buttonIndex" = some v → (∀ q : ℚ, v ≠ JSVal.num q) →
      validateFrameMessage isValidUrl message = false) ∧
    (validateFrameMessage isValidUrl message = true →
      message.getField "buttonIndex" = none ∨
      ∃ q : ℚ, message.getField "buttonIndex" = some (JSVal.num q) ∧ 1 ≤ q ∧ q ≤ 4) := by
  have key : validateFrameMessage isValidUrl message = true →
      message.getField "buttonIndex" = none ∨
      ∃ q : ℚ, message.getField "buttonIndex" = some (JSVal.num q) ∧ 1 ≤ q ∧ q ≤ 4 := by
    intro h
    have hbtn : buttonIndexOk message = true := by
      unfold validateFrameMessage at h
      simp only [Bool.and_eq_true] at h
      exact h.1.1.2
    unfold buttonIndexOk at hbtn
    rcases hb : message.getField "buttonIndex" with _ | v
    · exact Or.inl rfl
    · rw [hb] at hbtn
      cases v with
      | num q =>
          simp only [Bool.and_eq_true, decide_eq_true_eq] at hbtn
          exact Or.inr ⟨q, rfl, hbtn.1, hbtn.2⟩
      | str t => simp at hbtn
      | bool b => simp at hbtn
      | null => simp at hbtn
      | obj f => simp at hbtn
  refine ⟨?_, ?_, key⟩
  · intro q hq hrange
    cases hval : validateFrameMessage isValidUrl message
    · rfl
    · exfalso
      rcases key hval with hnone | ⟨q', hq', h1, h4⟩
      · rw [hq] at hnone
        exact Option.noConfusion hnone
      · rw [hq] at hq'
        injection hq' with h'
        injection h' with h''
        subst h''
        rcases hrange with hlt | hgt
        · exact absurd h1 (not_le.mpr hlt)
        · exact absurd h4 (not_le.mpr hgt)
  · intro v hv hnotnum
    cases hval : validateFrameMessage isValidUrl message
    · rfl
    · exfalso
      rcases key hval with hnone | ⟨q, hq, -, -⟩
      · rw [hv] at hnone
        exact Option.noConfusion hnone
      · rw [hv] at hq
        injection hq with h'
        exact hnotnum q h'

/-- Witness for the amended C4: `buttonIndex = 5` is rejected whatever the
other fields hold. -/
theorem frameMessage_buttonIndex_range_witness :
    validateFrameMessage (fun _ => true) buttonIndexFiveMsg = false :=
  (frameMessage_buttonIndex_range (fun _ => true) buttonIndexFiveMsg).1 5 rfl
    (Or.inr (by norm_num))

lemma preferredBaseChain_eq_base (isProduction : Bool) :
    preferredBaseChain? isProduction = some ⟨8453, "Base"⟩ := by
  cases isProduction <;> rfl

/-- **C6.** For every schema-valid amount and recipient with token `"ETH"`
(and any environment), the prepared transaction is a plain-value transfer on
Base: `data = "0x"`, `to` = the recipient, and `value` the decimal string of
`parseEther(amount)`, which is the amount scaled by exactly `10 ^ 18` in
integer arithmetic (third conjunct: the concrete instance
`"0.01" ↦ "10000000000000000"`). -/
theorem prepareTip_native_eth_transfer (isProduction : Bool) (amount recipient : String)
    (w : Nat) (hschema : tipSchemaValid amount "ETH" recipient = true)
    (hparse : parseUnits? amount 18 = some w) :
    prepareTipPost isProduction amount "ETH" recipient
        = PrepareOutcome.transactionFrame ⟨recipient, Nat.repr w, "0x"⟩ 8453 ∧
    (∀ q : ℚ, parseDecimal? amount = some q → (w : ℚ) = q * 10 ^ 18) ∧
    prepareTipPost false "0.01" "ETH" "0x0000000000000000000000000000000000000001"
        = PrepareOutcome.transactionFrame
            ⟨"0x0000000000000000000000000000000000000001", "10000000000000000", "0x"⟩
            8453 := by
  refine ⟨?_, ?_, by decide⟩
  · simp [prepareTipPost, hschema, hparse, preferredBaseChain_eq_base]
  · intro q hq
    rcases hsp : splitOnChar '.' amount.data with _ | ⟨w1, _ | ⟨f1, _ | _⟩⟩ <;>
      simp only [parseUnits?, hsp] at hparse <;>
      simp only [parseDecimal?, hsp] at hq
    · exact absurd hparse (by simp)
    · split at hparse
      · rename_i hg1
        rw [if_pos hg1] at hq
        injection hparse with hw
        injection hq with hqe
        rw [← hqe, ← hw]
        push_cast
        ring
      · exact absurd hparse (by simp)
    · split at hparse
      · rename_i hguard
        rw [Bool.and_eq_true] at hguard
        have hlen : f1.length ≤ 18 := by
          have := hguard.2
          simpa using this
        have hg' : ((!w1.isEmpty || !f1.isEmpty) && w1.all Char.isDigit
            && f1.all Char.isDigit) = true := hguard.1
        rw [if_pos hg'] at hq
        injection hparse with hw
        injection hq with hqe
        have hp : (10 : ℚ) ^ (18 - f1.length) * 10 ^ f1.length = 10 ^ 18 := by
          rw [← pow_add]
          congr 1
          omega
        rw [← hqe, ← hw, Rat.mkRat_eq_div]
        rw [div_mul_eq_mul_div, eq_div_iff (by positivity)]
        push_cast
        linear_combination (digitsVal f1 : ℚ) * hp
      · exact absurd hparse (by simp)
    · exact absurd hparse (by simp)

/-- Witness for C6 at amount `"0.5"`: value `5 * 10 ^ 17`, and the scaling
identity at the parsed rational `5/10`. -/
theorem prepareTip_native_eth_transfer_witness :
    prepareTipPost true "0.5" "ETH" "0x00000000000000000000000000000000000000ab"
        = PrepareOutcome.transactionFrame
            ⟨"0x00000000000000000000000000000000000000ab", "500000000000000000", "0x"⟩
            8453 ∧
    ((500000000000000000 : Nat) : ℚ) = mkRat 5 10 * 10 ^ 18 := by
  have h := prepareTip_native_eth_transfer true "0.5"
    "0x00000000000000000000000000000000000000ab" 500000000000000000 (by decide) (by decide)
  exact ⟨h.1, h.2.1 (mkRat 5 10) rfl⟩

/-- **C8.** For every schema-valid request whose token is not the native
`"ETH"` and has no configured contract address on the resolved chain (Base),
the preparer returns the explicit unsupported-token rejection naming the
token-chain pair — by constructor disjointness it is not a transaction frame
for any other token or chain, not a native transfer, and not the catch-all
server error, i.e. no silent fallback and no crash.  (The
`parseUnits? amount 18 = some w` hypothesis pins the request past
`parseEther`, which the code computes before the token branch.) -/
theorem prepareTip_unsupported_token (isProduction : Bool)
    (amount token recipient : String) (w : Nat)
    (hschema : tipSchemaValid amount token recipient = true)
    (hparse : parseUnits? amount 18 = some w)
    (hnotEth : token ≠ "ETH")
    (hnoContract : getTokenContract token 8453 = none) :
    prepareTipPost isProduction amount token recipient
        = PrepareOutcome.unsupportedToken token "Base" := by
  have hbeq : (token == "ETH") = false := beq_eq_false_iff_ne.mpr hnotEth
  simp [prepareTipPost, hschema, hparse, preferredBaseChain_eq_base, hbeq, hnoContract]

/-- Witness for C8: USDT has no configured address on Base
(`TOKEN_ADDRESSES[8453]` lists only USDC and WETH), so preparing a USDT tip
is rejected with the pair named. -/
theorem prepareTip_unsupported_token_witness :
    prepareTipPost false "0.1" "USDT" "0x0000000000000000000000000000000000000001"
        = PrepareOutcome.unsupportedToken "USDT" "Base" :=
  prepareTip_unsupported_token false "0.1" "USDT"
    "0x0000000000000000000000000000000000000001" 100000000000000000
    (by decide) (by decide) (by decide) (by decide)

lemma hexToNat_go (l : List Char) :
    ∀ a : Nat, l.foldl (fun acc c => acc * 16 + hexCharVal c) a
      = a * 16 ^ l.length + hexToNat l := by
  induction l with
  | nil => intro a; simp [hexToNat]
  | cons c cs ih =>
      intro a
      have h0 : hexToNat (c :: cs) = hexCharVal c * 16 ^ cs.length + hexToNat cs := by
        unfold hexToNat
        simp only [List.foldl_cons]
        rw [ih (0 * 16 + hexCharVal c)]
        simp [hexToNat]
      simp only [List.foldl_cons, List.length_cons]
      rw [ih (a * 16 + hexCharVal c), h0]
      ring

lemma hexToNat_replicate_zero (k : Nat) : hexToNat (List.replicate k '0') = 0 := by
  induction k with
  | zero => rfl
  | succ k ih =>
      show hexToNat ('0' :: List.replicate k '0') = 0
      unfold hexToNat at ih ⊢
      simp only [List.foldl_cons]
      have h0 : hexCharVal '0' = 0 := by decide
      simpa [h0] using ih

lemma hexToNat_padStart (k : Nat) (l : List Char) :
    hexToNat (padStart k '0' l) = hexToNat l := by
  unfold padStart hexToNat
  rw [List.foldl_append]
  have h0 : List.foldl (fun acc c => acc * 16 + hexCharVal c) 0
      (List.replicate (k - l.length) '0') = 0 := hexToNat_replicate_zero _
  rw [h0]

lemma hexCharVal_hexDigitChar : ∀ d : Fin 16, hexCharVal (hexDigitChar d.val) = d.val := by
  decide

lemma natToHexCore_spec : ∀ n acc, hexToNat (natToHexCore n acc)
    = n * 16 ^ acc.length + hexToNat acc := by
  intro n
  induction n using Nat.strong_induction_on with
  | _ n ih =>
      intro acc
      unfold natToHexCore
      split
      · rename_i h
        subst h
        simp
      · rename_i h
        rw [ih (n / 16) (Nat.div_lt_self (Nat.pos_of_ne_zero h) (by norm_num))]
        have hcons : hexToNat (hexDigitChar (n % 16) :: acc)
            = (n % 16) * 16 ^ acc.length + hexToNat acc := by
          unfold hexToNat
          simp only [List.foldl_cons]
          rw [hexToNat_go acc (0 * 16 + hexCharVal (hexDigitChar (n % 16)))]
          have hv : hexCharVal (hexDigitChar (n % 16)) = n % 16 :=
            hexCharVal_hexDigitChar ⟨n % 16, Nat.mod_lt _ (by norm_num)⟩
          simp [hv, hexToNat]
        rw [hcons]
        conv_rhs => rw [← Nat.div_add_mod n 16]
        simp only [List.length_cons]
        ring

lemma natToHex_hexToNat (n : Nat) : hexToNat (natToHex n) = n := by
  unfold natToHex
  split
  · rename_i h
    subst h
    decide
  · simpa using natToHexCore_spec n []

lemma natToHexCore_length : ∀ (k n : Nat) (acc : List Char), n < 16 ^ k →
    (natToHexCore n acc).length ≤ k + acc.length := by
  intro k
  induction k with
  | zero =>
      intro n acc h
      have hn : n = 0 := by simpa using h
      subst hn
      unfold natToHexCore
      simp
  | succ k ih =>
      intro n acc h
      unfold natToHexCore
      split
      · omega
      · rename_i hn
        have h16 : n / 16 < 16 ^ k := by
          rw [Nat.div_lt_iff_lt_mul (by norm_num)]
          calc n < 16 ^ (k + 1) := h
          _ = 16 ^ k * 16 := by rw [pow_succ]
        have := ih (n / 16) (hexDigitChar (n % 16) :: acc) h16
        simp only [List.length_cons] at this
        omega

lemma natToHex_length_le (n : Nat) (h : n < 16 ^ 64) : (natToHex n).length ≤ 64 := by
  unfold natToHex
  split
  · simp
  · simpa using natToHexCore_length 64 n [] h

lemma drop_append_exact {α : Type} (l₁ l₂ : List α) (n : Nat) (h : l₁.length = n) :
    (l₁ ++ l₂).drop n = l₂ := by
  subst h
  exact List.drop_left l₁ l₂

lemma take_append_exact {α : Type} (l₁ l₂ : List α) (n : Nat) (h : l₁.length = n) :
    (l₁ ++ l₂).take n = l₁ := by
  subst h
  exact List.take_left l₁ l₂

/-- **C7.** `encodeTransfer` produces the 4-byte `transfer` selector followed
by the recipient left-padded to 32 bytes and the amount left-padded to 32
bytes (138 hex characters in all), and the encoding round-trips: for every
40-hex-digit recipient address and every amount below `2 ^ 256`, decoding the
two argument words of the produced data recovers the original recipient and
the original scaled amount exactly. -/
theorem encodeTransfer_roundTrip (toAddr rest : List Char) (amount : Nat)
    (hto : toAddr = '0' :: 'x' :: rest) (hlen : rest.length = 40)
    (hhex : rest.all isHexDigitChar = true) (hamt : amount < 2 ^ 256) :
    decodeTransfer (encodeTransfer toAddr amount) = (toAddr, amount) ∧
    (encodeTransfer toAddr amount).take 10 = transferSelector ∧
    (encodeTransfer toAddr amount).length = 138 := by
  have hamt16 : amount < 16 ^ 64 := by
    calc amount < 2 ^ 256 := hamt
    _ = 16 ^ 64 := by norm_num
  have hxlen : (natToHex amount).length ≤ 64 := natToHex_length_le amount hamt16
  have hdrop2 : toAddr.drop 2 = rest := by rw [hto]; rfl
  have hsel : transferSelector.length = 10 := by decide
  have hAlen : (padStart 64 '0' (toAddr.drop 2)).length = 64 := by
    rw [hdrop2]
    simp only [padStart, List.length_append, List.length_replicate, hlen]
  have hBlen : (padStart 64 '0' (natToHex amount)).length = 64 := by
    simp only [padStart, List.length_append, List.length_replicate]
    omega
  refine ⟨?_, ?_, ?_⟩
  · unfold decodeTransfer encodeTransfer
    rw [List.append_assoc, drop_append_exact transferSelector _ 10 hsel]
    rw [take_append_exact _ _ 64 hAlen, drop_append_exact _ _ 64 hAlen]
    simp only [Prod.mk.injEq]
    constructor
    · rw [hdrop2]
      show '0' :: 'x' :: (List.replicate (64 - rest.length) '0' ++ rest).drop 24 = toAddr
      rw [drop_append_exact _ _ 24 (by simp [hlen]), hto]
    · have hBtake : List.take 64 (padStart 64 '0' (natToHex amount))
          = padStart 64 '0' (natToHex amount) := List.take_of_length_le (by omega)
      rw [hBtake, hexToNat_padStart, natToHex_hexToNat]
  · unfold encodeTransfer
    rw [List.append_assoc, take_append_exact _ _ 10 hsel]
  · unfold encodeTransfer
    simp only [List.length_append, hAlen, hBlen, hsel]

/-- Witness for C7 at a concrete address and `amount = 1000000`. -/
theorem encodeTransfer_roundTrip_witness :
    decodeTransfer (encodeTransfer "0x00000000000000000000000000000000000000ab".data 1000000)
        = ("0x00000000000000000000000000000000000000ab".data, 1000000) ∧
    (encodeTransfer "0x00000000000000000000000000000000000000ab".data 1000000).take 10
        = transferSelector ∧
    (encodeTransfer "0x00000000000000000000000000000000000000ab".data 1000000).length
        = 138 :=
  encodeTransfer_roundTrip "0x00000000000000000000000000000000000000ab".data
    "00000000000000000000000000000000000000ab".data 1000000 (by decide) (by decide)
    (by decide) (by norm_num)

end TipChain
